import Mathlib

/-!
# Contact pipeline: batching aggregators, classification and attribute maps

A shallow embedding of the Go sources `aggregator.go`, `api.go`, `worker.go`
and `main.go`.

* A goroutine that loops over a `select` is a function over the list of the
  cases the `select` took, in order (`Event`).  The ticker and the context
  are part of the environment: every order of timer fires and cancellations
  is some event list, so a statement over all event lists covers all of them.
* A remote call (`BulkCreateAPI`, `BulkUpdateAPI`, the HTTP exchange inside
  `SearchContactAPI`) is an environment oracle: its result is a parameter.
* Log lines are dropped, except the error line of a failed bulk call, which
  is the only place where the result of that call is used.
-/

namespace Netcore

/-! ## Data model -/

/-- Modelled from the spec: the declaration of the `Contact` struct is not
among the sources.  The six fields are the ones of the struct literal in
`ReadCSV` (`csv_reader.go`), each assigned a CSV cell, hence a string. -/
structure Contact where
  Phone : String
  FirstName : String
  LastName : String
  Rashi : String
  Age : String
  Gender : String
deriving DecidableEq, Repr

/-- The struct `PendingUpdate` of `aggregator.go`. -/
structure PendingUpdate where
  ContactID : Int
  Contact : Contact
deriving DecidableEq, Repr

/-- The constant `BatchSize` of `aggregator.go`. -/
def BatchSize : Nat := 2

/-! ## The aggregator loop (`createAggregator`, `updateAggregator`) -/

/-- The cases of the `select` in the aggregator loop. -/
inductive Event (T : Type) where
  /-- `item, ok := <-Queue` with `ok = true`. -/
  | recv (x : T)
  /-- `item, ok := <-Queue` with `ok = false`: the queue is closed and drained. -/
  | closed
  /-- `<-ticker.C`. -/
  | tick
  /-- `<-ctx.Done()`. -/
  | cancelled
deriving DecidableEq, Repr

/-- The local state of an aggregator goroutine together with the trace of
what it did to its environment. -/
structure Agg (T : Type) where
  /-- The local slice `batch`. -/
  batch : List T
  /-- The arguments of the bulk calls made so far, in call order. -/
  sent : List (List T)
  /-- The errors logged for failed bulk calls, in order. -/
  failures : List String
  /-- The number of `ticker.Reset(FlushTimeout)` calls made so far. -/
  resets : Nat
  /-- Whether the goroutine has returned. -/
  exited : Bool
deriving DecidableEq, Repr

/-- The result of a bulk call: `none` is Go's `nil` error.  The oracle is
asked with the number of earlier bulk calls and the batch. -/
abbrev BulkAPI (T : Type) := Nat → List T → Option String

/-- The closure `flush` of `createAggregator` / `updateAggregator`. -/
def flush {T : Type} (bulk : BulkAPI T) (s : Agg T) : Agg T :=
  if s.batch.length = 0 then s
  else
    { s with
      sent := s.sent ++ [s.batch]
      failures :=
        match bulk s.sent.length s.batch with
        | none => s.failures
        | some err => s.failures ++ [err]
      batch := [] }

/-- One iteration of the `for { select { ... } }` loop. -/
def step {T : Type} (bulk : BulkAPI T) (s : Agg T) : Event T → Agg T
  | Event.recv x =>
      let s1 : Agg T := { s with batch := s.batch ++ [x] }
      if s1.batch.length ≥ BatchSize then
        let s2 := flush bulk s1
        { s2 with resets := s2.resets + 1 }
      else s1
  | Event.closed => { flush bulk s with exited := true }
  | Event.tick => flush bulk s
  | Event.cancelled => { flush bulk s with exited := true }

/-- The loop: events are taken until the goroutine returns. -/
def loop {T : Type} (bulk : BulkAPI T) (s : Agg T) : List (Event T) → Agg T
  | [] => s
  | e :: es => if s.exited then s else loop bulk (step bulk s e) es

/-- The state at the entry of the loop: `var batch []T` is the nil slice. -/
def Agg.init {T : Type} : Agg T :=
  { batch := [], sent := [], failures := [], resets := 0, exited := false }

/-- The body shared by both aggregators. -/
def aggregator {T : Type} (bulk : BulkAPI T) (events : List (Event T)) : Agg T :=
  loop bulk Agg.init events

/-- The goroutine `createAggregator`: items are contacts, the bulk call is
`BulkCreateAPI`. -/
def createAggregator (BulkCreateAPI : BulkAPI Contact)
    (events : List (Event Contact)) : Agg Contact :=
  aggregator BulkCreateAPI events

/-- The goroutine `updateAggregator`: items are pending updates, the bulk call
is `BulkUpdateAPI`. -/
def updateAggregator (BulkUpdateAPI : BulkAPI PendingUpdate)
    (events : List (Event PendingUpdate)) : Agg PendingUpdate :=
  aggregator BulkUpdateAPI events

/-- The items received in an event list, in receive order. -/
def received {T : Type} : List (Event T) → List T
  | [] => []
  | Event.recv x :: es => x :: received es
  | _ :: es => received es

/-- An interleaving of deliveries and timer fires: `some x` delivers `x`,
`none` is a timer fire. -/
def interleave {T : Type} : List (Option T) → List (Event T)
  | [] => []
  | some x :: os => Event.recv x :: interleave os
  | none :: os => Event.tick :: interleave os

/-- The consecutive chunks of length `n` of `xs`, followed by the remainder
when it is not empty. -/
def chunks {T : Type} (n : Nat) (xs : List T) : List (List T) :=
  (List.range (xs.length / n)).map (fun i => (xs.drop (i * n)).take n)
    ++ (if xs.length % n = 0 then [] else [xs.drop (xs.length / n * n)])

/-- What an observer of the remote API and of the goroutine sees of an
aggregator: the pending batch, the calls made, and whether it returned. -/
def Agg.view {T : Type} (s : Agg T) : List T × List (List T) × Bool :=
  (s.batch, s.sent, s.exited)

/-! ## Decimal formatting and parsing of `int` (`fmt.Sprintf("%d", _)`, `strconv.Atoi`) -/

/-- Go's `int` on a 64-bit platform: the values `-2^63 .. 2^63 - 1`. -/
def isGoInt (n : Int) : Prop := -(2 ^ 63 : Int) ≤ n ∧ n < (2 ^ 63 : Int)

instance (n : Int) : Decidable (isGoInt n) := by
  unfold isGoInt
  exact inferInstance

/-- The library call `fmt.Sprintf("%d", n)` of `SearchContactAPI`: a minus sign
for a negative value, then the decimal digits of the magnitude without
leading zeros. -/
def Sprintf_d (n : Int) : String :=
  String.mk (if n < 0 then '-' :: Nat.toDigits 10 n.natAbs else Nat.toDigits 10 n.natAbs)

/-- The value of a string of decimal digits, as accumulated by the parsing loop
of `strconv`: `n = n*10 + (ch - '0')`. -/
def digitsValue (ds : List Char) : Nat :=
  ds.foldl (fun v d => v * 10 + (d.toNat - 48)) 0

/-- The library function `strconv.Atoi` for a 64-bit `int`, with its error
(`none` is Go's `nil`): an optional sign, then at least one character, all
of them decimal digits; a magnitude outside the range of `int` is a range
error with the nearest bound as value, any other failure is a syntax error
with value `0`. -/
def Atoi (s : String) : Int × Option String :=
  match s.data with
  | [] => (0, some "invalid syntax")
  | c :: cs =>
    let neg : Bool := c == '-'
    let ds := if c == '-' || c == '+' then cs else c :: cs
    if ds.isEmpty then (0, some "invalid syntax")
    else if ds.all Char.isDigit then
      let un := digitsValue ds
      if !neg && decide (un ≥ 2 ^ 63) then ((2 ^ 63 : Int) - 1, some "value out of range")
      else if neg && decide (un > 2 ^ 63) then (-(2 ^ 63 : Int), some "value out of range")
      else (if neg then -(un : Int) else (un : Int), none)
    else (0, some "invalid syntax")

/-! ## Classification (`SearchContactAPI`, `ProcessContact`, `worker`) -/

/-- One element of `SearchResponse.Data`. -/
structure SearchHit where
  ContactID : Int
  Email : String
  Mobile : String
deriving DecidableEq, Repr

/-- The struct `SearchResponse` of `api.go`. -/
structure SearchResponse where
  Data : List SearchHit
deriving DecidableEq, Repr

/-- What the environment does with the search request of `SearchContactAPI`. -/
inductive SearchExchange where
  /-- Marshalling, building the request or `httpClient.Do` returned an error. -/
  | failed (err : String)
  /-- A response arrived, with its status code and what decoding its body as
  a `SearchResponse` gives. -/
  | replied (status : Nat) (body : Except String SearchResponse)

/-- The three results `(bool, string, error)` of `SearchContactAPI`. -/
structure Lookup where
  found : Bool
  contactID : String
  err : Option String
deriving DecidableEq, Repr

/-- The function `SearchContactAPI` of `api.go`, after the HTTP exchange. -/
def SearchContactAPI (x : SearchExchange) : Lookup :=
  match x with
  | SearchExchange.failed err => ⟨false, "", some err⟩
  | SearchExchange.replied status body =>
    if status = 401 then ⟨false, "", some "unauthorized (401)"⟩
    else if status ≠ 200 then
      ⟨false, "", some ("search failed with status: " ++ toString status)⟩
    else
      match body with
      | Except.error err => ⟨false, "", some err⟩
      | Except.ok result =>
        match result.Data with
        | hit :: _ => ⟨true, Sprintf_d hit.ContactID, none⟩
        | [] => ⟨false, "", none⟩

/-- The package-level channels `CreateQueue` and `UpdateQueue`, each as the
sequence of the values sent on it so far, in send order. -/
structure Queues where
  CreateQueue : List Contact
  UpdateQueue : List PendingUpdate
deriving DecidableEq, Repr

/-- The function `ProcessContact` of `api.go`; `lookup` is what its call
`SearchContactAPI(ctx, contact.Phone)` returned. -/
def ProcessContact (lookup : Lookup) (q : Queues) (contact : Contact) : Queues :=
  match lookup.err with
  | some _ => q
  | none =>
    if lookup.found then
      let id := (Atoi lookup.contactID).1
      { q with UpdateQueue := q.UpdateQueue ++ [{ ContactID := id, Contact := contact }] }
    else
      { q with CreateQueue := q.CreateQueue ++ [contact] }

/-- The loop `for contact := range jobs { ProcessContact(ctx, contact) }` of
`worker`, over the contacts taken from `jobs`, each with the result of its
lookup. -/
def worker (q : Queues) : List (Contact × Lookup) → Queues
  | [] => q
  | (contact, lookup) :: jobs => worker (ProcessContact lookup q contact) jobs

/-- The number of contacts whose lookup returned an error. -/
def dropped (jobs : List (Contact × Lookup)) : Nat :=
  (jobs.filter (fun j => j.2.err.isSome)).length

/-! ## Attribute maps (`buildAttributes`) -/

/-- A Go `map[string]string`, as the list of its entries with distinct keys. -/
abbrev GoMap := List (String × String)

/-- The assignment `m[k] = v`. -/
def GoMap.set (m : GoMap) (k v : String) : GoMap :=
  if m.any (fun p => p.1 == k) then m.map (fun p => if p.1 == k then (k, v) else p)
  else m ++ [(k, v)]

/-- The lookup `v, ok := m[k]`. -/
def GoMap.get? (m : GoMap) (k : String) : Option String :=
  List.lookup k m

/-- The function `buildAttributes` of `aggregator.go`. -/
def buildAttributes (c : Contact) : GoMap :=
  let attrs : GoMap := []
  let attrs := if c.FirstName ≠ "" then attrs.set "FIRST_NAME" c.FirstName else attrs
  let attrs := if c.LastName ≠ "" then attrs.set "LAST_NAME" c.LastName else attrs
  let attrs := if c.Rashi ≠ "" then attrs.set "RASHI" c.Rashi else attrs
  let attrs := if c.Age ≠ "" then attrs.set "AGE" c.Age else attrs
  attrs

/-! ## The goroutines of `main` (`main.go`, `worker.go`) -/

/-- Where the goroutine `main` stands, from the call of `StartWorkers` on. -/
inductive MainPc where
  /-- In the loop of `StartWorkers`, before iteration `i`. -/
  | startWorkers (i : Nat)
  /-- Inside `ReadCSV(jobs)`. -/
  | readCSV
  /-- `ReadCSV` returned `nil`; before `close(jobs)`. -/
  | closeJobs
  /-- At `wg.Wait()`. -/
  | waitWorkers
  /-- Before `close(CreateQueue)`. -/
  | closeCreate
  /-- Before `close(UpdateQueue)`. -/
  | closeUpdate
  /-- At `aggWg.Wait()`. -/
  | waitAggs
  /-- The function `main` has returned. -/
  | returned
  /-- `ReadCSV` returned an error and `log.Fatal` ended the process. -/
  | fatal
deriving DecidableEq, Repr

/-- The position of `main` in its straight-line code. -/
def MainPc.rank : MainPc → Nat
  | MainPc.startWorkers _ => 0
  | MainPc.readCSV => 1
  | MainPc.fatal => 1
  | MainPc.closeJobs => 2
  | MainPc.waitWorkers => 3
  | MainPc.closeCreate => 4
  | MainPc.closeUpdate => 5
  | MainPc.waitAggs => 6
  | MainPc.returned => 7

/-- Where a goroutine `worker` stands. -/
inductive WorkerPc where
  /-- At the receive of `for contact := range jobs`. -/
  | ranging
  /-- Inside `ProcessContact(ctx, c)`. -/
  | processing (c : Contact)
  /-- The loop has ended and the deferred `wg.Done()` has run. -/
  | finished
deriving DecidableEq, Repr

/-- The capacity of the channel `jobs`: `make(chan Contact, 100)`. -/
def jobsCap : Nat := 100

/-- The capacity of `CreateQueue` and `UpdateQueue`: `make(chan _, 500)`. -/
def queueCap : Nat := 500

/-- The state of the whole process. -/
structure Sys where
  /-- The goroutine `main`. -/
  pc : MainPc
  /-- The contacts that `ReadCSV` has still to send on `jobs`. -/
  source : List Contact
  /-- The buffer of the channel `jobs`. -/
  jobs : List Contact
  /-- Whether `jobs` is closed. -/
  jobsClosed : Bool
  /-- The counter of the wait group `wg`. -/
  wg : Nat
  /-- The worker goroutines started so far. -/
  workers : List WorkerPc
  /-- The buffer of the channel `CreateQueue`. -/
  createQ : List Contact
  /-- Whether `CreateQueue` is closed. -/
  createClosed : Bool
  /-- The buffer of the channel `UpdateQueue`. -/
  updateQ : List PendingUpdate
  /-- Whether `UpdateQueue` is closed. -/
  updateClosed : Bool
  /-- The goroutine running `createAggregator`. -/
  createAgg : Agg Contact
  /-- The goroutine running `updateAggregator`. -/
  updateAgg : Agg PendingUpdate
  /-- The counter of the wait group `aggWg`. -/
  aggWg : Nat
  /-- Whether the goroutine of `createAggregator` has called `aggWg.Done()`. -/
  createDone : Bool
  /-- Whether the goroutine of `updateAggregator` has called `aggWg.Done()`. -/
  updateDone : Bool
  /-- Whether a goroutine panicked: a send on a closed channel, the close
  of a closed channel or a negative wait group counter. -/
  panicked : Bool
  /-- History: the number of contacts sent on `jobs`. -/
  fed : Nat
  /-- History: the number of calls of `ProcessContact` that returned. -/
  classified : Nat
deriving DecidableEq, Repr

/-- The state of `main` when it calls `StartWorkers`: `aggWg.Add(2)` is done,
both aggregators are started, `jobs` and `wg` are new; `rows` are the
contacts that `ReadCSV` will read. -/
def Sys.init (rows : List Contact) : Sys :=
  { pc := MainPc.startWorkers 0, source := rows, jobs := [], jobsClosed := false, wg := 0,
    workers := [], createQ := [], createClosed := false, updateQ := [],
    updateClosed := false, createAgg := Agg.init, updateAgg := Agg.init, aggWg := 2,
    createDone := false, updateDone := false, panicked := false, fed := 0, classified := 0 }

/-- One step of the goroutine `main`; a blocked step leaves the state as it
is.  `WorkerCount` is the constant of that name, whose declaration is not
among the sources. -/
def mainStep (WorkerCount : Nat) (s : Sys) : Sys :=
  match s.pc with
  | MainPc.startWorkers i =>
    if i < WorkerCount then
      { s with wg := s.wg + 1, workers := s.workers ++ [WorkerPc.ranging],
               pc := MainPc.startWorkers (i + 1) }
    else { s with pc := MainPc.readCSV }
  | MainPc.readCSV =>
    match s.source with
    | [] => { s with pc := MainPc.closeJobs }
    | c :: rest =>
      if s.jobs.length < jobsCap then
        { s with jobs := s.jobs ++ [c], source := rest, fed := s.fed + 1 }
      else s
  | MainPc.closeJobs =>
    if s.jobsClosed then { s with panicked := true }
    else { s with jobsClosed := true, pc := MainPc.waitWorkers }
  | MainPc.waitWorkers =>
    if s.wg = 0 then { s with pc := MainPc.closeCreate } else s
  | MainPc.closeCreate =>
    if s.createClosed then { s with panicked := true }
    else { s with createClosed := true, pc := MainPc.closeUpdate }
  | MainPc.closeUpdate =>
    if s.updateClosed then { s with panicked := true }
    else { s with updateClosed := true, pc := MainPc.waitAggs }
  | MainPc.waitAggs =>
    if s.aggWg = 0 then { s with pc := MainPc.returned } else s
  | MainPc.returned => s
  | MainPc.fatal => s

/-- One step of the worker goroutine number `i`; `lookup` is what the call of
`SearchContactAPI` inside `ProcessContact` returns. -/
def workerStep (s : Sys) (i : Nat) (lookup : Lookup) : Sys :=
  match s.workers[i]? with
  | none => s
  | some WorkerPc.finished => s
  | some WorkerPc.ranging =>
    match s.jobs with
    | c :: rest => { s with jobs := rest, workers := s.workers.set i (WorkerPc.processing c) }
    | [] =>
      if s.jobsClosed then
        if s.wg = 0 then { s with panicked := true }
        else { s with wg := s.wg - 1, workers := s.workers.set i WorkerPc.finished }
      else s
  | some (WorkerPc.processing c) =>
    let q := ProcessContact lookup ⟨s.createQ, s.updateQ⟩ c
    let s1 : Sys :=
      { s with createQ := q.CreateQueue, updateQ := q.UpdateQueue,
               workers := s.workers.set i WorkerPc.ranging, classified := s.classified + 1 }
    if lookup.err.isSome then s1
    else if lookup.found then
      if s.updateClosed then { s with panicked := true }
      else if s.updateQ.length < queueCap then s1 else s
    else
      if s.createClosed then { s with panicked := true }
      else if s.createQ.length < queueCap then s1 else s

/-- One iteration of the loop of `createAggregator`, on its queue or, with
`timer`, on its ticker.  The context of `main` is `context.Background()`,
which is never cancelled. -/
def createStep (bulk : BulkAPI Contact) (s : Sys) (timer : Bool) : Sys :=
  if s.createAgg.exited then s
  else if timer then { s with createAgg := step bulk s.createAgg Event.tick }
  else
    match s.createQ with
    | x :: rest => { s with createQ := rest, createAgg := step bulk s.createAgg (Event.recv x) }
    | [] =>
      if s.createClosed then { s with createAgg := step bulk s.createAgg Event.closed }
      else s

/-- One iteration of the loop of `updateAggregator`. -/
def updateStep (bulk : BulkAPI PendingUpdate) (s : Sys) (timer : Bool) : Sys :=
  if s.updateAgg.exited then s
  else if timer then { s with updateAgg := step bulk s.updateAgg Event.tick }
  else
    match s.updateQ with
    | x :: rest => { s with updateQ := rest, updateAgg := step bulk s.updateAgg (Event.recv x) }
    | [] =>
      if s.updateClosed then { s with updateAgg := step bulk s.updateAgg Event.closed }
      else s

/-- The call `aggWg.Done()` that follows the return of `createAggregator`. -/
def createExit (s : Sys) : Sys :=
  if s.createAgg.exited && !s.createDone then
    if s.aggWg = 0 then { s with panicked := true }
    else { s with aggWg := s.aggWg - 1, createDone := true }
  else s

/-- The call `aggWg.Done()` that follows the return of `updateAggregator`. -/
def updateExit (s : Sys) : Sys :=
  if s.updateAgg.exited && !s.updateDone then
    if s.aggWg = 0 then { s with panicked := true }
    else { s with aggWg := s.aggWg - 1, updateDone := true }
  else s

/-- The choices of the scheduler and of the environment. -/
inductive Action where
  /-- The goroutine `main` takes a step. -/
  | main
  /-- `ReadCSV` fails to open the file or to read its header. -/
  | csvError
  /-- Worker `i` takes a step. -/
  | worker (i : Nat) (lookup : Lookup)
  /-- The goroutine of `createAggregator` takes a `select` case. -/
  | create (timer : Bool)
  /-- The goroutine of `updateAggregator` takes a `select` case. -/
  | update (timer : Bool)
  /-- The goroutine of `createAggregator` calls `aggWg.Done()`. -/
  | createExit
  /-- The goroutine of `updateAggregator` calls `aggWg.Done()`. -/
  | updateExit
deriving DecidableEq, Repr

/-- Whether the process has ended: `main` returned, `log.Fatal` ran or a
goroutine panicked. -/
def Sys.halted (s : Sys) : Bool :=
  s.panicked || s.pc == MainPc.returned || s.pc == MainPc.fatal

/-- One step of the process. -/
def exec (WorkerCount : Nat) (BulkCreateAPI : BulkAPI Contact)
    (BulkUpdateAPI : BulkAPI PendingUpdate) (s : Sys) (a : Action) : Sys :=
  if s.halted then s
  else
    match a with
    | Action.main => mainStep WorkerCount s
    | Action.csvError =>
      if s.pc = MainPc.readCSV ∧ s.fed = 0 then { s with pc := MainPc.fatal } else s
    | Action.worker i lookup => workerStep s i lookup
    | Action.create timer => createStep BulkCreateAPI s timer
    | Action.update timer => updateStep BulkUpdateAPI s timer
    | Action.createExit => createExit s
    | Action.updateExit => updateExit s

/-- An execution of `main`: the state after a schedule. -/
def runMain (WorkerCount : Nat) (BulkCreateAPI : BulkAPI Contact)
    (BulkUpdateAPI : BulkAPI PendingUpdate) (rows : List Contact)
    (schedule : List Action) : Sys :=
  schedule.foldl (exec WorkerCount BulkCreateAPI BulkUpdateAPI) (Sys.init rows)

/-- The number of workers that have not finished. -/
def pending : List WorkerPc → Nat
  | [] => 0
  | WorkerPc.finished :: ws => pending ws
  | WorkerPc.ranging :: ws => pending ws + 1
  | WorkerPc.processing _ :: ws => pending ws + 1

/-- The number of workers inside `ProcessContact`. -/
def busy : List WorkerPc → Nat
  | [] => 0
  | WorkerPc.processing _ :: ws => busy ws + 1
  | WorkerPc.ranging :: ws => busy ws
  | WorkerPc.finished :: ws => busy ws

/-- The invariant of the process for `WorkerCount` workers. -/
structure Inv (WorkerCount : Nat) (s : Sys) : Prop where
  noPanic : s.panicked = false
  jobsClosed_eq : s.jobsClosed = decide (3 ≤ s.pc.rank)
  createClosed_eq : s.createClosed = decide (5 ≤ s.pc.rank)
  updateClosed_eq : s.updateClosed = decide (6 ≤ s.pc.rank)
  wg_eq : s.wg = pending s.workers
  spawning : ∀ i, s.pc = MainPc.startWorkers i → s.workers.length = i ∧ i ≤ WorkerCount
  spawned : 1 ≤ s.pc.rank → s.workers.length = WorkerCount
  finishedDrained : WorkerPc.finished ∈ s.workers → s.jobsClosed = true ∧ s.jobs = []
  drained : 4 ≤ s.pc.rank → pending s.workers = 0
  fed_eq : s.fed = s.jobs.length + busy s.workers + s.classified
  aggWg_eq : s.aggWg = (if s.createDone then 0 else 1) + (if s.updateDone then 0 else 1)
  createDone_exited : s.createDone = true → s.createAgg.exited = true
  updateDone_exited : s.updateDone = true → s.updateAgg.exited = true
  returned_agg : s.pc = MainPc.returned → s.aggWg = 0

/-- A schedule of a complete run with one worker and two contacts: the first
contact is not found, the second is found. -/
def demoSchedule : List Action :=
  [Action.main, Action.main, Action.main, Action.main,
   Action.worker 0 ⟨false, "", none⟩, Action.main, Action.worker 0 ⟨false, "", none⟩,
   Action.worker 0 ⟨true, "5", none⟩, Action.worker 0 ⟨true, "5", none⟩, Action.main,
   Action.worker 0 ⟨false, "", none⟩, Action.main, Action.main, Action.main,
   Action.create false, Action.create false, Action.update false, Action.update false,
   Action.createExit, Action.updateExit, Action.main, Action.main]

/-- The two contacts of the run `demoSchedule`. -/
def demoRows : List Contact :=
  [⟨"900", "a", "", "", "", ""⟩, ⟨"901", "b", "", "", "", ""⟩]

/-! ## Lemmas on the aggregator loop -/

section AggregatorLemmas
variable {T : Type} (bulk : BulkAPI T)

theorem flush_batch (s : Agg T) : (flush bulk s).batch = [] := by
  unfold flush
  split
  · next h => exact List.length_eq_zero.mp h
  · rfl

theorem flush_exited (s : Agg T) : (flush bulk s).exited = s.exited := by
  unfold flush
  split <;> rfl

theorem flush_resets (s : Agg T) : (flush bulk s).resets = s.resets := by
  unfold flush
  split <;> rfl

theorem flush_sent (s : Agg T) :
    (flush bulk s).sent = if s.batch.length = 0 then s.sent else s.sent ++ [s.batch] := by
  unfold flush
  split <;> rfl

theorem flush_sent_join (s : Agg T) :
    (flush bulk s).sent.flatten = s.sent.flatten ++ s.batch := by
  rw [flush_sent]
  split
  · next h => simp [List.length_eq_zero.mp h]
  · simp

theorem loop_exited (s : Agg T) (h : s.exited = true) (es : List (Event T)) :
    loop bulk s es = s := by
  cases es with
  | nil => rfl
  | cons e es => simp [loop, h]

theorem loop_cons (s : Agg T) (h : s.exited = false) (e : Event T) (es : List (Event T)) :
    loop bulk s (e :: es) = loop bulk (step bulk s e) es := by
  simp [loop, h]

theorem loop_append (es fs : List (Event T)) (s : Agg T) :
    loop bulk s (es ++ fs) = loop bulk (loop bulk s es) fs := by
  induction es generalizing s with
  | nil => rfl
  | cons e es ih =>
    by_cases h : s.exited = true
    · simp [loop, h, loop_exited]
    · simp [loop, h, ih]

theorem step_conserve (s : Agg T) (e : Event T) :
    (step bulk s e).sent.flatten ++ (step bulk s e).batch
      = s.sent.flatten ++ s.batch ++ received [e] := by
  cases e with
  | recv x =>
    simp only [step, received]
    split
    · simp [flush_sent_join, flush_batch]
    · simp
  | closed => simp [step, received, flush_sent_join, flush_batch]
  | tick => simp [step, received, flush_sent_join, flush_batch]
  | cancelled => simp [step, received, flush_sent_join, flush_batch]

theorem received_interleave (os : List (Option T)) :
    received (interleave os) = os.filterMap id := by
  induction os with
  | nil => rfl
  | cons o os ih => cases o <;> simp [interleave, received, ih]

theorem step_recv_exited (s : Agg T) (x : T) :
    (step bulk s (Event.recv x)).exited = s.exited := by
  simp only [step]
  split
  · simp [flush_exited]
  · rfl

theorem step_tick_exited (s : Agg T) :
    (step bulk s Event.tick).exited = s.exited := by
  simp [step, flush_exited]

theorem loop_interleave (os : List (Option T)) (s : Agg T) (h : s.exited = false) :
    (loop bulk s (interleave os)).exited = false
      ∧ (loop bulk s (interleave os)).sent.flatten ++ (loop bulk s (interleave os)).batch
          = s.sent.flatten ++ s.batch ++ os.filterMap id := by
  induction os generalizing s with
  | nil => simp [interleave, loop, h]
  | cons o os ih =>
    cases o with
    | none =>
      have h1 := step_tick_exited bulk s
      have h2 := step_conserve bulk s Event.tick
      have := ih (step bulk s Event.tick) (h1.trans h)
      simp only [interleave]
      rw [loop_cons bulk s h]
      refine ⟨this.1, ?_⟩
      rw [this.2, h2]
      simp [received]
    | some x =>
      have h1 := step_recv_exited bulk s x
      have h2 := step_conserve bulk s (Event.recv x)
      have := ih (step bulk s (Event.recv x)) (h1.trans h)
      simp only [interleave]
      rw [loop_cons bulk s h]
      refine ⟨this.1, ?_⟩
      rw [this.2, h2]
      simp [received]

theorem aggregator_drain (os : List (Option T)) :
    (aggregator bulk (interleave os ++ [Event.closed])).sent.flatten = os.filterMap id
      ∧ (aggregator bulk (interleave os ++ [Event.closed])).batch = []
      ∧ (aggregator bulk (interleave os ++ [Event.closed])).exited = true := by
  have h := loop_interleave bulk os Agg.init rfl
  unfold aggregator
  rw [loop_append]
  generalize loop bulk Agg.init (interleave os) = r at h
  rw [loop_cons bulk r h.1]
  simp only [loop, step]
  refine ⟨?_, flush_batch bulk r, trivial⟩
  have := h.2
  simp only [flush_sent_join]
  rw [this]
  simp [Agg.init]

theorem chunks_nil (n : Nat) : chunks n ([] : List T) = [] := by
  simp [chunks]

theorem chunks_two_single (a : T) : chunks 2 [a] = [[a]] := by
  simp [chunks]

theorem chunks_two_cons_cons (a b : T) (xs : List T) :
    chunks 2 (a :: b :: xs) = [a, b] :: chunks 2 xs := by
  have h1 : (xs.length + 1 + 1) / 2 = xs.length / 2 + 1 := by omega
  have h2 : (xs.length + 1 + 1) % 2 = xs.length % 2 := by omega
  simp only [chunks, List.length_cons, h1, h2]
  rw [List.range_succ_eq_map]
  simp [Function.comp_def, Nat.add_mul]

theorem step_pair (s : Agg T) (hb : s.batch = []) (he : s.exited = false) (a b : T) :
    (step bulk (step bulk s (Event.recv a)) (Event.recv b)).batch = []
      ∧ (step bulk (step bulk s (Event.recv a)) (Event.recv b)).exited = false
      ∧ (step bulk (step bulk s (Event.recv a)) (Event.recv b)).sent = s.sent ++ [[a, b]] := by
  simp [step, hb, he, BatchSize, flush]

theorem loop_recv_closed_aux (xs : List T) :
    (∀ s : Agg T, s.batch = [] → s.exited = false →
      (loop bulk s (xs.map Event.recv ++ [Event.closed])).sent = s.sent ++ chunks 2 xs)
    ∧ (∀ (a : T) (s : Agg T), s.batch = [] → s.exited = false →
      (loop bulk s ((a :: xs).map Event.recv ++ [Event.closed])).sent
        = s.sent ++ chunks 2 (a :: xs)) := by
  induction xs with
  | nil =>
    constructor
    · intro s hb he
      simp [loop, he, step, flush, hb, chunks_nil]
    · intro a s hb he
      simp [loop, he, step, flush, hb, chunks_two_single, BatchSize]
  | cons b xs ih =>
    refine ⟨ih.2 b, ?_⟩
    intro a s hb he
    obtain ⟨h1, h2, h3⟩ := step_pair bulk s hb he a b
    have he1 : (step bulk s (Event.recv a)).exited = false :=
      (step_recv_exited bulk s a).trans he
    simp only [List.map_cons, List.cons_append]
    rw [loop_cons bulk s he, loop_cons bulk _ he1, ih.1 _ h1 h2, h3, chunks_two_cons_cons]
    simp

theorem aggregator_recv_closed (xs : List T) :
    (aggregator bulk (xs.map Event.recv ++ [Event.closed])).sent = chunks BatchSize xs := by
  have := (loop_recv_closed_aux bulk xs).1 Agg.init rfl rfl
  simpa [aggregator, Agg.init, BatchSize] using this

theorem flush_view (bulk1 bulk2 : BulkAPI T) (s1 s2 : Agg T) (h : s1.view = s2.view) :
    (flush bulk1 s1).view = (flush bulk2 s2).view := by
  simp only [Agg.view, Prod.mk.injEq] at h
  obtain ⟨hb, hs, he⟩ := h
  simp only [flush, hb, hs]
  split <;> simp [Agg.view, hb, hs, he]

theorem step_view (bulk1 bulk2 : BulkAPI T) (s1 s2 : Agg T) (h : s1.view = s2.view)
    (e : Event T) : (step bulk1 s1 e).view = (step bulk2 s2 e).view := by
  have hv := h
  simp only [Agg.view, Prod.mk.injEq] at h
  obtain ⟨hb, hs, he⟩ := h
  cases e with
  | recv x =>
    have hf := flush_view bulk1 bulk2
      { s1 with batch := s1.batch ++ [x] } { s2 with batch := s2.batch ++ [x] }
      (by simp [Agg.view, hb, hs, he])
    simp only [Agg.view, Prod.mk.injEq] at hf
    rw [hb] at hf
    simp only [step, hb]
    split
    · simpa [Agg.view] using hf
    · simp [Agg.view, hb, hs, he]
  | closed =>
    have hf := flush_view bulk1 bulk2 s1 s2 hv
    simp only [Agg.view, Prod.mk.injEq] at hf
    simp [step, Agg.view, hf.1, hf.2.1]
  | tick => simpa [step] using flush_view bulk1 bulk2 s1 s2 hv
  | cancelled =>
    have hf := flush_view bulk1 bulk2 s1 s2 hv
    simp only [Agg.view, Prod.mk.injEq] at hf
    simp [step, Agg.view, hf.1, hf.2.1]

theorem loop_view (bulk1 bulk2 : BulkAPI T) (es : List (Event T)) :
    ∀ s1 s2 : Agg T, s1.view = s2.view →
      (loop bulk1 s1 es).view = (loop bulk2 s2 es).view := by
  induction es with
  | nil => intro s1 s2 h; simpa [loop] using h
  | cons e es ih =>
    intro s1 s2 h
    have he : s1.exited = s2.exited := by
      simp only [Agg.view, Prod.mk.injEq] at h
      exact h.2.2
    simp only [loop, he]
    split
    · exact h
    · exact ih _ _ (step_view bulk1 bulk2 s1 s2 h e)

theorem received_cons (e : Event T) (es : List (Event T)) :
    received (e :: es) = received [e] ++ received es := by
  cases e <;> simp [received]

theorem flush_extends (s : Agg T) :
    ∃ l, (flush bulk s).sent = s.sent ++ l ∧ l.flatten ++ (flush bulk s).batch = s.batch := by
  by_cases h : s.batch.length = 0
  · exact ⟨[], by simp [flush, h], by simp [flush, h]⟩
  · exact ⟨[s.batch], by simp [flush, h], by simp [flush, h]⟩

theorem step_extends (s : Agg T) (e : Event T) :
    ∃ l, (step bulk s e).sent = s.sent ++ l
      ∧ l.flatten ++ (step bulk s e).batch = s.batch ++ received [e] := by
  cases e with
  | recv x =>
    simp only [step, received]
    split
    · obtain ⟨l, h1, h2⟩ := flush_extends bulk { s with batch := s.batch ++ [x] }
      exact ⟨l, by simpa using h1, by simpa using h2⟩
    · exact ⟨[], by simp, by simp⟩
  | closed =>
    obtain ⟨l, h1, h2⟩ := flush_extends bulk s
    exact ⟨l, by simpa [step] using h1, by simpa [step, received] using h2⟩
  | tick =>
    obtain ⟨l, h1, h2⟩ := flush_extends bulk s
    exact ⟨l, by simpa [step] using h1, by simpa [step, received] using h2⟩
  | cancelled =>
    obtain ⟨l, h1, h2⟩ := flush_extends bulk s
    exact ⟨l, by simpa [step] using h1, by simpa [step, received] using h2⟩

theorem loop_extends (es : List (Event T)) :
    ∀ s : Agg T, ∃ l, (loop bulk s es).sent = s.sent ++ l
      ∧ (l.flatten ++ (loop bulk s es).batch) <+: (s.batch ++ received es) := by
  induction es with
  | nil => intro s; exact ⟨[], by simp [loop], by simp [loop, received]⟩
  | cons e es ih =>
    intro s
    by_cases he : s.exited = true
    · exact ⟨[], by simp [loop, he], by simp [loop, he]⟩
    · have he0 : s.exited = false := by simpa using he
      obtain ⟨l1, h1, h2⟩ := step_extends bulk s e
      obtain ⟨l2, h3, h4⟩ := ih (step bulk s e)
      refine ⟨l1 ++ l2, ?_, ?_⟩
      · rw [loop_cons bulk s he0, h3, h1, List.append_assoc]
      · rw [loop_cons bulk s he0, received_cons, ← List.append_assoc, ← h2]
        simpa [List.append_assoc] using (List.prefix_append_right_inj l1.flatten).mpr h4

end AggregatorLemmas


section AggregatorInvariant
variable {T : Type} (bulk : BulkAPI T)

/-- The size invariant of the loop: every batch sent has between one and
`BatchSize` items and the pending batch is shorter than `BatchSize`. -/
theorem flush_sizes (s : Agg T)
    (hs : ∀ b ∈ s.sent, 1 ≤ b.length ∧ b.length ≤ BatchSize)
    (hb : s.batch.length ≤ BatchSize) :
    ∀ b ∈ (flush bulk s).sent, 1 ≤ b.length ∧ b.length ≤ BatchSize := by
  intro b hmem
  rw [flush_sent] at hmem
  split at hmem
  · exact hs b hmem
  · next hne =>
    rcases List.mem_append.mp hmem with h | h
    · exact hs b h
    · have : b = s.batch := by simpa using h
      subst this
      exact ⟨Nat.one_le_iff_ne_zero.mpr hne, hb⟩

theorem step_sizes (s : Agg T) (e : Event T)
    (hs : ∀ b ∈ s.sent, 1 ≤ b.length ∧ b.length ≤ BatchSize)
    (hb : s.batch.length < BatchSize) :
    (∀ b ∈ (step bulk s e).sent, 1 ≤ b.length ∧ b.length ≤ BatchSize)
      ∧ (step bulk s e).batch.length < BatchSize := by
  have hpos : 0 < BatchSize := by decide
  cases e with
  | recv x =>
    simp only [step]
    split
    · refine ⟨?_, by simp [flush_batch, hpos]⟩
      exact flush_sizes bulk { s with batch := s.batch ++ [x] } hs
        (by simpa using hb)
    · next h => exact ⟨hs, by simpa using h⟩
  | closed =>
    exact ⟨flush_sizes bulk s hs (Nat.le_of_lt hb), by simp [step, flush_batch, hpos]⟩
  | tick =>
    exact ⟨flush_sizes bulk s hs (Nat.le_of_lt hb), by simp [step, flush_batch, hpos]⟩
  | cancelled =>
    exact ⟨flush_sizes bulk s hs (Nat.le_of_lt hb), by simp [step, flush_batch, hpos]⟩

theorem loop_sizes (es : List (Event T)) :
    ∀ s : Agg T, (∀ b ∈ s.sent, 1 ≤ b.length ∧ b.length ≤ BatchSize) →
      s.batch.length < BatchSize →
      (∀ b ∈ (loop bulk s es).sent, 1 ≤ b.length ∧ b.length ≤ BatchSize)
        ∧ (loop bulk s es).batch.length < BatchSize := by
  induction es with
  | nil => intro s hs hb; exact ⟨hs, hb⟩
  | cons e es ih =>
    intro s hs hb
    by_cases he : s.exited = true
    · rw [loop_exited bulk s he]
      exact ⟨hs, hb⟩
    · have he0 : s.exited = false := by simpa using he
      rw [loop_cons bulk s he0]
      obtain ⟨h1, h2⟩ := step_sizes bulk s e hs hb
      exact ih _ h1 h2

end AggregatorInvariant

section AggregatorFacts
variable {T : Type} (bulk : BulkAPI T)

theorem received_append (es fs : List (Event T)) :
    received (es ++ fs) = received es ++ received fs := by
  induction es with
  | nil => simp [received]
  | cons e es ih =>
    rw [List.cons_append, received_cons, received_cons e es, ih, List.append_assoc]

theorem received_interleave_closed (os : List (Option T)) :
    received (interleave os ++ [Event.closed]) = os.filterMap id := by
  rw [received_append, received_interleave]
  simp [received]

theorem loop_terminating (s : Agg T) (h : s.exited = false) (es : List (Event T)) :
    loop bulk s (Event.closed :: es) = { flush bulk s with exited := true }
      ∧ loop bulk s (Event.cancelled :: es) = { flush bulk s with exited := true } := by
  constructor <;>
  · rw [loop_cons bulk s h]
    exact loop_exited bulk _ rfl es

theorem loop_after_flush_prefix (s : Agg T) (es : List (Event T)) :
    ∃ later, (loop bulk (flush bulk s) es).sent = (flush bulk s).sent ++ later
      ∧ later.flatten <+: received es := by
  obtain ⟨l, h1, h2⟩ := loop_extends bulk es (flush bulk s)
  refine ⟨l, h1, ?_⟩
  rw [flush_batch, List.nil_append] at h2
  exact (List.prefix_append _ _).trans h2

end AggregatorFacts

/-! ## The claims on the aggregators -/

/-- C1: for every sequence of items delivered to `createAggregator` or
`updateAggregator`, interleaved in any way with timer fires and ended by the
closure of the queue, the batches passed to the bulk call, concatenated in
call order, are exactly the items received, in receive order, and the
aggregator has returned. -/
theorem aggregators_send_received_items_in_order
    (BulkCreateAPI : BulkAPI Contact) (BulkUpdateAPI : BulkAPI PendingUpdate)
    (cs : List (Option Contact)) (us : List (Option PendingUpdate)) :
    ((createAggregator BulkCreateAPI (interleave cs ++ [Event.closed])).sent.flatten
          = received (interleave cs ++ [Event.closed])
        ∧ received (interleave cs ++ [Event.closed]) = cs.filterMap id
        ∧ (createAggregator BulkCreateAPI (interleave cs ++ [Event.closed])).exited = true)
      ∧ ((updateAggregator BulkUpdateAPI (interleave us ++ [Event.closed])).sent.flatten
          = received (interleave us ++ [Event.closed])
        ∧ received (interleave us ++ [Event.closed]) = us.filterMap id
        ∧ (updateAggregator BulkUpdateAPI (interleave us ++ [Event.closed])).exited = true) := by
  have hc := aggregator_drain BulkCreateAPI cs
  have hu := aggregator_drain BulkUpdateAPI us
  refine ⟨⟨?_, received_interleave_closed cs, hc.2.2⟩,
    ⟨?_, received_interleave_closed us, hu.2.2⟩⟩
  · rw [received_interleave_closed]
    exact hc.1
  · rw [received_interleave_closed]
    exact hu.1

/-- C2: when `createAggregator` receives the contacts `xs` with no timer fire
and no cancellation and the queue is then closed, the bulk-create calls are
the consecutive chunks of `xs` of length `BatchSize`, in order, followed by the
remaining `xs.length % BatchSize` contacts when there are any; five contacts
give the calls of sizes 2, 2 and 1. -/
theorem createAggregator_sends_chunks (BulkCreateAPI : BulkAPI Contact)
    (xs : List Contact) (c1 c2 c3 c4 c5 : Contact) :
    (createAggregator BulkCreateAPI (xs.map Event.recv ++ [Event.closed])).sent
        = chunks BatchSize xs
      ∧ (createAggregator BulkCreateAPI
            ([c1, c2, c3, c4, c5].map Event.recv ++ [Event.closed])).sent
          = [[c1, c2], [c3, c4], [c5]] := by
  refine ⟨aggregator_recv_closed BulkCreateAPI xs, ?_⟩
  have := aggregator_recv_closed BulkCreateAPI [c1, c2, c3, c4, c5]
  unfold createAggregator
  rw [this]
  simp [chunks, BatchSize, List.range_succ]

/-- C3: a running aggregator that takes its terminating event, the closure of
its queue or the cancellation of its context, makes exactly one bulk call with
the whole pending batch when that batch is not empty and no call when it is
empty, and then returns, leaving later events untouched; cancellation does
exactly what the closure of the queue does. -/
theorem terminating_event_flushes_once {T : Type} (bulk : BulkAPI T) (s : Agg T)
    (hrun : s.exited = false) (es : List (Event T)) :
    (loop bulk s (Event.closed :: es)).sent
        = (if s.batch.length = 0 then s.sent else s.sent ++ [s.batch])
      ∧ (loop bulk s (Event.closed :: es)).batch = []
      ∧ (loop bulk s (Event.closed :: es)).exited = true
      ∧ loop bulk s (Event.cancelled :: es) = loop bulk s (Event.closed :: es) := by
  obtain ⟨h1, h2⟩ := loop_terminating bulk s hrun es
  rw [h1, h2]
  exact ⟨flush_sent bulk s, flush_batch bulk s, rfl, rfl⟩

/-- Witness of C3: a running aggregator holding one item. -/
theorem terminating_event_flushes_once_witness :
    (loop (fun _ _ => none) (⟨[7], [], [], 0, false⟩ : Agg Nat)
        [Event.closed, Event.recv 8]).sent = [[7]]
      ∧ loop (fun _ _ => none) (⟨[7], [], [], 0, false⟩ : Agg Nat)
          [Event.cancelled, Event.recv 8]
        = loop (fun _ _ => none) (⟨[7], [], [], 0, false⟩ : Agg Nat)
          [Event.closed, Event.recv 8] :=
  ⟨(terminating_event_flushes_once (fun _ _ => none) ⟨[7], [], [], 0, false⟩ rfl
      [Event.recv 8]).1,
   (terminating_event_flushes_once (fun _ _ => none) ⟨[7], [], [], 0, false⟩ rfl
      [Event.recv 8]).2.2.2⟩

/-- C4: after any sequence of events applied to an aggregator started with the
empty batch, every batch that was passed to the bulk call has at least one and
at most `BatchSize` items, and the pending batch has fewer than `BatchSize`
items; no empty batch is ever sent. -/
theorem sent_batches_bounded {T : Type} (bulk : BulkAPI T) (es : List (Event T)) :
    (∀ b ∈ (aggregator bulk es).sent, 1 ≤ b.length ∧ b.length ≤ BatchSize)
      ∧ (aggregator bulk es).batch.length < BatchSize
      ∧ [] ∉ (aggregator bulk es).sent := by
  have h := loop_sizes bulk es Agg.init (by simp [Agg.init]) (by simp [Agg.init, BatchSize])
  refine ⟨h.1, h.2, ?_⟩
  intro hmem
  have := (h.1 [] hmem).1
  simp at this

/-- Witness of C4: three items and a timer fire. -/
theorem sent_batches_bounded_witness :
    (1 ≤ [1, 2].length ∧ [1, 2].length ≤ BatchSize)
      ∧ (aggregator (fun _ _ => (none : Option String))
          [Event.recv 1, Event.recv 2, Event.recv 3, Event.tick]).batch.length < BatchSize :=
  ⟨(sent_batches_bounded (fun _ _ => none)
      [Event.recv 1, Event.recv 2, Event.recv 3, Event.tick]).1 [1, 2] (by decide),
   (sent_batches_bounded (fun _ _ => none)
      [Event.recv 1, Event.recv 2, Event.recv 3, Event.tick]).2.1⟩

/-- C7: whatever the bulk call returns, a flush leaves the pending batch empty
and the aggregator running as before; the pending batch, the calls made and
the running flag after the flush, and after any further events, do not
depend on the results of the bulk calls; and the batches sent after the
flush hold only items received after it, in receive order. -/
theorem flush_outcome_is_contained {T : Type} (bulk1 bulk2 : BulkAPI T) (s : Agg T)
    (es : List (Event T)) :
    (flush bulk1 s).batch = []
      ∧ (flush bulk1 s).exited = s.exited
      ∧ (flush bulk1 s).view = (flush bulk2 s).view
      ∧ (loop bulk1 (flush bulk1 s) es).view = (loop bulk2 (flush bulk2 s) es).view
      ∧ ∃ later, (loop bulk1 (flush bulk1 s) es).sent = (flush bulk1 s).sent ++ later
          ∧ later.flatten <+: received es :=
  ⟨flush_batch bulk1 s, flush_exited bulk1 s, flush_view bulk1 bulk2 s s rfl,
   loop_view bulk1 bulk2 es _ _ (flush_view bulk1 bulk2 s s rfl),
   loop_after_flush_prefix bulk1 s es⟩

/-- C9: a timer fire makes exactly one bulk call with the whole pending batch
when it is not empty and none when it is empty, and leaves the batch empty and
the aggregator running as before; a timer fire right after a size-triggered
flush makes no call; one contact followed by a timer fire gives one call of
size one, and the closure of the queue then adds no call. -/
theorem tick_flushes_pending_batch {T : Type} (bulk : BulkAPI T) (s : Agg T) (x : T)
    (BulkCreateAPI : BulkAPI Contact) (c : Contact) :
    (step bulk s Event.tick).sent
        = (if s.batch.length = 0 then s.sent else s.sent ++ [s.batch])
      ∧ (step bulk s Event.tick).batch = []
      ∧ (step bulk s Event.tick).exited = s.exited
      ∧ (step bulk (step bulk s (Event.recv x)) Event.tick).sent
          = (if BatchSize ≤ s.batch.length + 1 then (step bulk s (Event.recv x)).sent
             else (step bulk s (Event.recv x)).sent ++ [s.batch ++ [x]])
      ∧ (createAggregator BulkCreateAPI [Event.recv c, Event.tick]).sent = [[c]]
      ∧ (createAggregator BulkCreateAPI [Event.recv c, Event.tick]).exited = false
      ∧ (createAggregator BulkCreateAPI [Event.recv c, Event.tick, Event.closed]).sent = [[c]]
      ∧ (createAggregator BulkCreateAPI [Event.recv c, Event.tick, Event.closed]).exited
          = true := by
  refine ⟨flush_sent bulk s, flush_batch bulk s, flush_exited bulk s, ?_, ?_, ?_, ?_, ?_⟩
  · by_cases h : BatchSize ≤ s.batch.length + 1
    · simp [step, h, flush_sent, flush_batch]
    · simp [step, h, flush_sent]
  · simp [createAggregator, aggregator, loop, step, flush, Agg.init, BatchSize]
  · simp [createAggregator, aggregator, loop, step, flush, Agg.init, BatchSize]
  · simp [createAggregator, aggregator, loop, step, flush, Agg.init, BatchSize]
  · simp [createAggregator, aggregator, loop, step, flush, Agg.init, BatchSize]

/-! ## Lemmas on decimal formatting and parsing -/

theorem digitChar_isDigit (d : Nat) (h : d < 10) :
    (Nat.digitChar d).isDigit = true ∧ (Nat.digitChar d).toNat - 48 = d := by
  interval_cases d <;> decide

theorem toDigitsCore_acc (fuel : Nat) :
    ∀ (n : Nat) (acc : List Char),
      Nat.toDigitsCore 10 fuel n acc = Nat.toDigitsCore 10 fuel n [] ++ acc := by
  induction fuel with
  | zero => intro n acc; simp [Nat.toDigitsCore]
  | succ fuel ih =>
    intro n acc
    simp only [Nat.toDigitsCore]
    split
    · simp
    · rw [ih (n / 10) (Nat.digitChar (n % 10) :: acc), ih (n / 10) [Nat.digitChar (n % 10)]]
      simp

theorem digitsValue_append_single (ds : List Char) (c : Char) :
    digitsValue (ds ++ [c]) = digitsValue ds * 10 + (c.toNat - 48) := by
  simp [digitsValue, List.foldl_append]

theorem toDigitsCore_spec (fuel : Nat) :
    ∀ n : Nat, n < fuel →
      digitsValue (Nat.toDigitsCore 10 fuel n []) = n
        ∧ (Nat.toDigitsCore 10 fuel n []).all Char.isDigit = true
        ∧ (Nat.toDigitsCore 10 fuel n []) ≠ [] := by
  induction fuel with
  | zero => intro n h; omega
  | succ fuel ih =>
    intro n h
    have hd := digitChar_isDigit (n % 10) (Nat.mod_lt n (by decide))
    simp only [Nat.toDigitsCore]
    split
    · next h0 =>
      refine ⟨?_, by simp [hd.1], by simp⟩
      have hn : n % 10 = n := by omega
      simp only [digitsValue, List.foldl_cons, List.foldl_nil, hd.2]
      omega
    · next h0 =>
      rw [toDigitsCore_acc]
      have hlt : n / 10 < fuel := by omega
      obtain ⟨h1, h2, _⟩ := ih (n / 10) hlt
      refine ⟨?_, ?_, by simp⟩
      · rw [digitsValue_append_single, h1, hd.2]
        omega
      · rw [List.all_append, h2]
        simp [hd.1]

theorem toDigits_spec (n : Nat) :
    digitsValue (Nat.toDigits 10 n) = n
      ∧ (Nat.toDigits 10 n).all Char.isDigit = true
      ∧ Nat.toDigits 10 n ≠ [] :=
  toDigitsCore_spec (n + 1) n (Nat.lt_succ_self n)

theorem Atoi_digits (ds : List Char) (hne : ds ≠ []) (hall : ds.all Char.isDigit = true)
    (hlt : digitsValue ds < 2 ^ 63) :
    Atoi (String.mk ds) = ((digitsValue ds : Int), none) := by
  cases ds with
  | nil => exact absurd rfl hne
  | cons c cs =>
    have hc : c.isDigit = true := by
      simp only [List.all_cons, Bool.and_eq_true] at hall
      exact hall.1
    have hm : (c == '-') = false := by
      apply beq_false_of_ne
      rintro rfl
      exact absurd hc (by decide)
    have hp : (c == '+') = false := by
      apply beq_false_of_ne
      rintro rfl
      exact absurd hc (by decide)
    have hlt2 : digitsValue (c :: cs) < 9223372036854775808 := by
      simpa using hlt
    simp [Atoi, hm, hp, hall, hlt2]

theorem Atoi_minus_digits (ds : List Char) (hne : ds ≠ []) (hall : ds.all Char.isDigit = true)
    (hle : digitsValue ds ≤ 2 ^ 63) :
    Atoi (String.mk ('-' :: ds)) = (-(digitsValue ds : Int), none) := by
  have hle2 : digitsValue ds ≤ 9223372036854775808 := by
    simpa using hle
  have hemp : ds.isEmpty = false := by
    cases ds with
    | nil => exact absurd rfl hne
    | cons c cs => rfl
  simp [Atoi, hall, hle2, hemp]

theorem Atoi_Sprintf_d (n : Int) (h : isGoInt n) : Atoi (Sprintf_d n) = (n, none) := by
  obtain ⟨hlo, hhi⟩ := h
  obtain ⟨hv, hall, hne⟩ := toDigits_spec n.natAbs
  by_cases hneg : n < 0
  · have hle : digitsValue (Nat.toDigits 10 n.natAbs) ≤ 2 ^ 63 := by
      rw [hv]; omega
    simp only [Sprintf_d, hneg, if_true]
    rw [Atoi_minus_digits _ hne hall hle, hv]
    congr 1
    omega
  · have hlt : digitsValue (Nat.toDigits 10 n.natAbs) < 2 ^ 63 := by
      rw [hv]; omega
    simp only [Sprintf_d, hneg, if_false]
    rw [Atoi_digits _ hne hall hlt, hv]
    congr 1
    omega

/-! ## Lemmas on classification -/

theorem ProcessContact_count (lookup : Lookup) (q : Queues) (contact : Contact) :
    (ProcessContact lookup q contact).CreateQueue.length
        + (ProcessContact lookup q contact).UpdateQueue.length
        + (if lookup.err.isSome then 1 else 0)
      = q.CreateQueue.length + q.UpdateQueue.length + 1 := by
  unfold ProcessContact
  cases lookup.err with
  | some e => simp
  | none =>
    by_cases hf : lookup.found = true
    · simp [hf]; omega
    · simp [hf]; omega

theorem worker_count (jobs : List (Contact × Lookup)) :
    ∀ q : Queues,
      (worker q jobs).CreateQueue.length + (worker q jobs).UpdateQueue.length + dropped jobs
        = q.CreateQueue.length + q.UpdateQueue.length + jobs.length := by
  induction jobs with
  | nil => intro q; simp [worker, dropped]
  | cons j jobs ih =>
    intro q
    obtain ⟨contact, lookup⟩ := j
    have h1 := ih (ProcessContact lookup q contact)
    have h2 := ProcessContact_count lookup q contact
    have h3 : dropped ((contact, lookup) :: jobs)
        = (if lookup.err.isSome then 1 else 0) + dropped jobs := by
      unfold dropped
      by_cases he : lookup.err.isSome = true
      · simp [List.filter_cons, he]; omega
      · simp [List.filter_cons, he]
    simp only [worker, List.length_cons]
    omega

/-! ## The claims on classification -/

/-- C5: `ProcessContact` has exactly one of three outcomes.  On a lookup error
both queues are left as they are; on `found = true` one `PendingUpdate`
holding the contact is sent on `UpdateQueue` and `CreateQueue` is left as it
is; on `found = false` the contact is sent on `CreateQueue` and `UpdateQueue`
is left as it is.  Hence for `N` contacts processed the numbers of contacts
created, updated and dropped add up to `N`. -/
theorem ProcessContact_classifies_once (lookup : Lookup) (q : Queues) (contact : Contact)
    (jobs : List (Contact × Lookup)) :
    (lookup.err ≠ none → ProcessContact lookup q contact = q)
      ∧ (lookup.err = none → lookup.found = true →
          ∃ id, ProcessContact lookup q contact
            = { CreateQueue := q.CreateQueue,
                UpdateQueue := q.UpdateQueue ++ [{ ContactID := id, Contact := contact }] })
      ∧ (lookup.err = none → lookup.found = false →
          ProcessContact lookup q contact
            = { CreateQueue := q.CreateQueue ++ [contact], UpdateQueue := q.UpdateQueue })
      ∧ (worker ⟨[], []⟩ jobs).CreateQueue.length + (worker ⟨[], []⟩ jobs).UpdateQueue.length
          + dropped jobs = jobs.length := by
  refine ⟨?_, ?_, ?_, ?_⟩
  · intro h
    unfold ProcessContact
    cases hl : lookup.err with
    | some e => rfl
    | none => exact absurd hl h
  · intro h hf
    exact ⟨(Atoi lookup.contactID).1, by simp [ProcessContact, h, hf]⟩
  · intro h hf
    simp [ProcessContact, h, hf]
  · simpa using worker_count jobs ⟨[], []⟩

/-- Witness of C5: a contact whose lookup found the remote identifier 12. -/
theorem ProcessContact_classifies_once_witness :
    ∃ id, ProcessContact ⟨true, "12", none⟩ ⟨[], []⟩ ⟨"900", "a", "b", "", "", "f"⟩
      = { CreateQueue := [],
          UpdateQueue := [] ++ [{ ContactID := id, Contact := ⟨"900", "a", "b", "", "", "f"⟩ }] } :=
  (ProcessContact_classifies_once ⟨true, "12", none⟩ ⟨[], []⟩
    ⟨"900", "a", "b", "", "", "f"⟩ []).2.1 rfl rfl

/-- C6: when the search response has a non-empty data list, the `PendingUpdate`
that `ProcessContact` sends on `UpdateQueue` carries the `contact_id` of the
first element of the response and the input contact unchanged: formatting an
`int` in decimal and parsing it back with `Atoi` gives the same `int` and no
error, for negative values and zero as well. -/
theorem ProcessContact_keeps_contact_id (contact : Contact) (q : Queues) (hit : SearchHit)
    (rest : List SearchHit) (h : isGoInt hit.ContactID) :
    Atoi (Sprintf_d hit.ContactID) = (hit.ContactID, none)
      ∧ ProcessContact
          (SearchContactAPI (SearchExchange.replied 200 (Except.ok ⟨hit :: rest⟩))) q contact
        = { CreateQueue := q.CreateQueue,
            UpdateQueue :=
              q.UpdateQueue ++ [{ ContactID := hit.ContactID, Contact := contact }] } := by
  have hr := Atoi_Sprintf_d hit.ContactID h
  refine ⟨hr, ?_⟩
  simp [ProcessContact, SearchContactAPI, hr]

/-- Witness of C6: a negative remote identifier. -/
theorem ProcessContact_keeps_contact_id_witness :
    isGoInt (-42)
      ∧ Atoi (Sprintf_d (-42)) = (-42, none)
      ∧ ProcessContact
          (SearchContactAPI (SearchExchange.replied 200 (Except.ok ⟨[⟨-42, "", "900"⟩]⟩)))
          ⟨[], []⟩ ⟨"900", "a", "b", "", "", "f"⟩
        = { CreateQueue := [],
            UpdateQueue := [] ++ [{ ContactID := -42, Contact := ⟨"900", "a", "b", "", "", "f"⟩ }] } :=
  ⟨by decide,
   ProcessContact_keeps_contact_id ⟨"900", "a", "b", "", "", "f"⟩ ⟨[], []⟩ ⟨-42, "", "900"⟩ []
     (by decide)⟩

theorem buildAttributes_eq_filter (c : Contact) :
    buildAttributes c
      = ([("FIRST_NAME", c.FirstName), ("LAST_NAME", c.LastName), ("RASHI", c.Rashi),
          ("AGE", c.Age)] : GoMap).filter (fun p => p.2 ≠ "") := by
  by_cases h1 : c.FirstName = "" <;> by_cases h2 : c.LastName = "" <;>
    by_cases h3 : c.Rashi = "" <;> by_cases h4 : c.Age = "" <;>
    simp [buildAttributes, GoMap.set, h1, h2, h3, h4, List.filter_cons]

theorem lookup_filter_nonempty (k v : String) (a b : String) (rest : GoMap) :
    List.lookup k (((a, b) :: rest).filter (fun p => p.2 ≠ "")) = some v ↔
      (k = a ∧ b ≠ "" ∧ v = b)
        ∨ ((k ≠ a ∨ b = "") ∧ List.lookup k (rest.filter (fun p => p.2 ≠ "")) = some v) := by
  by_cases hb : b = ""
  · simp [List.filter_cons, hb]
  · by_cases hk : k = a
    · subst hk
      simp [List.filter_cons, hb, List.lookup, eq_comm]
    · have hbeq : (k == a) = false := beq_false_of_ne hk
      simp [List.filter_cons, hb, List.lookup, hbeq, hk]

/-- C8: `buildAttributes c` holds a value `v` under a key `k` exactly when `k`
is one of `FIRST_NAME`, `LAST_NAME`, `RASHI`, `AGE`, the matching field of `c`
is not the empty string, and `v` is that field; the map has no other key, so
the phone number and the gender are never in it. -/
theorem buildAttributes_spec (c : Contact) (k v : String) :
    (buildAttributes c).get? k = some v ↔
      (k = "FIRST_NAME" ∧ c.FirstName ≠ "" ∧ v = c.FirstName)
        ∨ (k = "LAST_NAME" ∧ c.LastName ≠ "" ∧ v = c.LastName)
        ∨ (k = "RASHI" ∧ c.Rashi ≠ "" ∧ v = c.Rashi)
        ∨ (k = "AGE" ∧ c.Age ≠ "" ∧ v = c.Age) := by
  have hFL : ("FIRST_NAME" : String) ≠ "LAST_NAME" := by decide
  have hFR : ("FIRST_NAME" : String) ≠ "RASHI" := by decide
  have hFA : ("FIRST_NAME" : String) ≠ "AGE" := by decide
  have hLR : ("LAST_NAME" : String) ≠ "RASHI" := by decide
  have hLA : ("LAST_NAME" : String) ≠ "AGE" := by decide
  have hRA : ("RASHI" : String) ≠ "AGE" := by decide
  unfold GoMap.get?
  rw [buildAttributes_eq_filter, lookup_filter_nonempty, lookup_filter_nonempty,
    lookup_filter_nonempty, lookup_filter_nonempty]
  simp only [List.filter_nil, List.lookup, and_false, or_false, reduceCtorEq]
  constructor
  · rintro (h | ⟨_, h | ⟨_, h | ⟨_, h⟩⟩⟩)
    · exact Or.inl h
    · exact Or.inr (Or.inl h)
    · exact Or.inr (Or.inr (Or.inl h))
    · exact Or.inr (Or.inr (Or.inr h))
  · rintro (h | h | h | h)
    · exact Or.inl h
    · exact Or.inr ⟨Or.inl (h.1 ▸ hFL.symm), Or.inl h⟩
    · exact Or.inr ⟨Or.inl (h.1 ▸ hFR.symm), Or.inr ⟨Or.inl (h.1 ▸ hLR.symm), Or.inl h⟩⟩
    · exact Or.inr ⟨Or.inl (h.1 ▸ hFA.symm),
        Or.inr ⟨Or.inl (h.1 ▸ hLA.symm), Or.inr ⟨Or.inl (h.1 ▸ hRA.symm), h⟩⟩⟩

/-! ## Lemmas on the goroutines of `main` -/

theorem pending_append_ranging (ws : List WorkerPc) :
    pending (ws ++ [WorkerPc.ranging]) = pending ws + 1
      ∧ busy (ws ++ [WorkerPc.ranging]) = busy ws := by
  induction ws with
  | nil => simp [pending, busy]
  | cons w ws ih => cases w <;> simp [pending, busy, ih] 

theorem pending_zero_all_finished (ws : List WorkerPc) (h : pending ws = 0) :
    (∀ w ∈ ws, w = WorkerPc.finished) ∧ busy ws = 0 := by
  induction ws with
  | nil => simp [busy]
  | cons w ws ih =>
    cases w with
    | finished =>
      have := ih (by simpa [pending] using h)
      exact ⟨by simpa using this.1, by simpa [busy] using this.2⟩
    | ranging => simp [pending] at h
    | processing c => simp [pending] at h

theorem set_ranging (ws : List WorkerPc) :
    ∀ (i : Nat) (w : WorkerPc), ws[i]? = some WorkerPc.ranging →
      pending (ws.set i w) + 1 = pending ws + pending [w]
        ∧ busy (ws.set i w) = busy ws + busy [w] := by
  induction ws with
  | nil => intro i w h; simp at h
  | cons v ws ih =>
    intro i w h
    cases i with
    | zero =>
      simp at h
      subst h
      cases w <;> simp [pending, busy]
    | succ i =>
      have := ih i w (by simpa using h)
      cases v <;> simp [pending, busy] <;> omega

theorem set_processing (ws : List WorkerPc) :
    ∀ (i : Nat) (c : Contact) (w : WorkerPc), ws[i]? = some (WorkerPc.processing c) →
      pending (ws.set i w) + 1 = pending ws + pending [w]
        ∧ busy (ws.set i w) + 1 = busy ws + busy [w] := by
  induction ws with
  | nil => intro i c w h; simp at h
  | cons v ws ih =>
    intro i c w h
    cases i with
    | zero =>
      simp at h
      subst h
      cases w <;> simp [pending, busy]
    | succ i =>
      have := ih i c w (by simpa using h)
      cases v <;> simp [pending, busy] <;> omega

theorem finished_mem_set (ws : List WorkerPc) (i : Nat) (w : WorkerPc)
    (hw : w ≠ WorkerPc.finished) (h : WorkerPc.finished ∈ ws.set i w) :
    WorkerPc.finished ∈ ws := by
  rcases List.mem_or_eq_of_mem_set h with h | h
  · exact h
  · exact absurd h.symm hw

theorem inv_init (W : Nat) (rows : List Contact) : Inv W (Sys.init rows) := by
  constructor <;> simp [Sys.init, MainPc.rank, pending, busy, Agg.init]

theorem inv_startWorkers (W : Nat) (s : Sys) (h : Inv W s) (i : Nat)
    (hpc : s.pc = MainPc.startWorkers i) :
    Inv W (if i < W then
        { s with wg := s.wg + 1, workers := s.workers ++ [WorkerPc.ranging],
                 pc := MainPc.startWorkers (i + 1) }
      else { s with pc := MainPc.readCSV }) := by
  obtain ⟨h1, h2, h3, h4, h5, h6, h7, h8, h9, h10, h11, h12, h13, h14⟩ := h
  have hi := h6 i hpc
  simp [hpc, MainPc.rank] at h2 h3 h4
  obtain ⟨hp, hb⟩ := pending_append_ranging s.workers
  split
  · next hlt =>
    refine ⟨h1, by simp [MainPc.rank, h2], by simp [MainPc.rank, h3],
      by simp [MainPc.rank, h4], by simp [hp, h5], ?_, by simp [MainPc.rank], ?_,
      by simp [MainPc.rank], by simp [hb, h10], h11, h12, h13, by simp⟩
    · intro k hk
      simp at hk
      subst hk
      simp [hi.1]
      omega
    · intro hf
      simp at hf
      exact h8 hf
  · next hge =>
    refine ⟨h1, by simp [MainPc.rank, h2], by simp [MainPc.rank, h3],
      by simp [MainPc.rank, h4], h5, by simp, ?_, h8,
      by simp [MainPc.rank], h10, h11, h12, h13, by simp⟩
    intro _
    show s.workers.length = W
    omega

theorem inv_readCSV (W : Nat) (s : Sys) (h : Inv W s) (hpc : s.pc = MainPc.readCSV) :
    Inv W (match s.source with
      | [] => { s with pc := MainPc.closeJobs }
      | c :: rest =>
        if s.jobs.length < jobsCap then
          { s with jobs := s.jobs ++ [c], source := rest, fed := s.fed + 1 }
        else s) := by
  have h0 := h
  obtain ⟨h1, h2, h3, h4, h5, h6, h7, h8, h9, h10, h11, h12, h13, h14⟩ := h
  simp [hpc, MainPc.rank] at h2 h3 h4 h7
  split
  · refine ⟨h1, by simp [MainPc.rank, h2], by simp [MainPc.rank, h3],
      by simp [MainPc.rank, h4], h5, by simp, by simp [h7], h8,
      by simp [MainPc.rank], h10, h11, h12, h13, by simp⟩
  · next c rest hsrc =>
    split
    · refine ⟨h1, by simp [hpc, MainPc.rank, h2], by simp [hpc, MainPc.rank, h3],
        by simp [hpc, MainPc.rank, h4], h5, by simp [hpc], by simp [h7], ?_,
        by simp [hpc, MainPc.rank], ?_, h11, h12, h13, by simp [hpc]⟩
      · intro hf
        have := (h8 hf).1
        simp [h2] at this
      · show s.fed + 1 = (s.jobs ++ [c]).length + busy s.workers + s.classified
        simp [h10]
        omega
    · exact h0

theorem inv_closeJobs (W : Nat) (s : Sys) (h : Inv W s) (hpc : s.pc = MainPc.closeJobs) :
    Inv W (if s.jobsClosed then { s with panicked := true }
      else { s with jobsClosed := true, pc := MainPc.waitWorkers }) := by
  obtain ⟨h1, h2, h3, h4, h5, h6, h7, h8, h9, h10, h11, h12, h13, h14⟩ := h
  simp [hpc, MainPc.rank] at h2 h3 h4 h7
  simp only [h2]
  refine ⟨h1, by simp [MainPc.rank], by simp [MainPc.rank, h3],
    by simp [MainPc.rank, h4], h5, by simp, by simp [h7], ?_,
    by simp [MainPc.rank], h10, h11, h12, h13, by simp⟩
  intro hf
  have := (h8 hf).1
  simp [h2] at this

theorem inv_waitWorkers (W : Nat) (s : Sys) (h : Inv W s)
    (hpc : s.pc = MainPc.waitWorkers) :
    Inv W (if s.wg = 0 then { s with pc := MainPc.closeCreate } else s) := by
  have h0 := h
  obtain ⟨h1, h2, h3, h4, h5, h6, h7, h8, h9, h10, h11, h12, h13, h14⟩ := h
  simp [hpc, MainPc.rank] at h2 h3 h4 h7
  split
  · next hz =>
    refine ⟨h1, by simp [MainPc.rank, h2], by simp [MainPc.rank, h3],
      by simp [MainPc.rank, h4], h5, by simp, by simp [h7], h8,
      ?_, h10, h11, h12, h13, by simp⟩
    intro _
    show pending s.workers = 0
    omega
  · exact h0

theorem inv_closeCreate (W : Nat) (s : Sys) (h : Inv W s) (hpc : s.pc = MainPc.closeCreate) :
    Inv W (if s.createClosed then { s with panicked := true }
      else { s with createClosed := true, pc := MainPc.closeUpdate }) := by
  obtain ⟨h1, h2, h3, h4, h5, h6, h7, h8, h9, h10, h11, h12, h13, h14⟩ := h
  simp [hpc, MainPc.rank] at h2 h3 h4 h7 h9
  simp only [h3]
  exact ⟨h1, by simp [MainPc.rank, h2], by simp [MainPc.rank],
    by simp [MainPc.rank, h4], h5, by simp, by simp [h7], h8,
    by simp [h9], h10, h11, h12, h13, by simp⟩

theorem inv_closeUpdate (W : Nat) (s : Sys) (h : Inv W s) (hpc : s.pc = MainPc.closeUpdate) :
    Inv W (if s.updateClosed then { s with panicked := true }
      else { s with updateClosed := true, pc := MainPc.waitAggs }) := by
  obtain ⟨h1, h2, h3, h4, h5, h6, h7, h8, h9, h10, h11, h12, h13, h14⟩ := h
  simp [hpc, MainPc.rank] at h2 h3 h4 h7 h9
  simp only [h4]
  exact ⟨h1, by simp [MainPc.rank, h2], by simp [MainPc.rank, h3],
    by simp [MainPc.rank], h5, by simp, by simp [h7], h8,
    by simp [h9], h10, h11, h12, h13, by simp⟩

theorem inv_waitAggs (W : Nat) (s : Sys) (h : Inv W s) (hpc : s.pc = MainPc.waitAggs) :
    Inv W (if s.aggWg = 0 then { s with pc := MainPc.returned } else s) := by
  have h0 := h
  obtain ⟨h1, h2, h3, h4, h5, h6, h7, h8, h9, h10, h11, h12, h13, h14⟩ := h
  simp [hpc, MainPc.rank] at h2 h3 h4 h7 h9
  split
  · next hz =>
    exact ⟨h1, by simp [MainPc.rank, h2], by simp [MainPc.rank, h3],
      by simp [MainPc.rank, h4], h5, by simp, by simp [h7], h8,
      by simp [h9], h10, h11, h12, h13, by simp [hz]⟩
  · exact h0

theorem inv_mainStep (W : Nat) (s : Sys) (h : Inv W s) :
    Inv W (mainStep W s) := by
  unfold mainStep
  split
  · next i hpc => exact inv_startWorkers W s h i hpc
  · next hpc => exact inv_readCSV W s h hpc
  · next hpc => exact inv_closeJobs W s h hpc
  · next hpc => exact inv_waitWorkers W s h hpc
  · next hpc => exact inv_closeCreate W s h hpc
  · next hpc => exact inv_closeUpdate W s h hpc
  · next hpc => exact inv_waitAggs W s h hpc
  · exact h
  · exact h

theorem inv_worker_take (W : Nat) (s : Sys) (h : Inv W s) (i : Nat) (c : Contact)
    (rest : List Contact) (hw : s.workers[i]? = some WorkerPc.ranging)
    (hj : s.jobs = c :: rest) :
    Inv W { s with jobs := rest, workers := s.workers.set i (WorkerPc.processing c) } := by
  obtain ⟨h1, h2, h3, h4, h5, h6, h7, h8, h9, h10, h11, h12, h13, h14⟩ := h
  obtain ⟨hp, hb⟩ := set_ranging s.workers i (WorkerPc.processing c) hw
  simp only [pending, busy] at hp hb
  refine ⟨h1, h2, h3, h4, ?_, ?_, ?_, ?_, ?_, ?_, h11, h12, h13, h14⟩
  · show s.wg = pending (s.workers.set i (WorkerPc.processing c))
    omega
  · intro k hk
    simpa using h6 k hk
  · intro hr
    simpa using h7 hr
  · intro hf
    have := h8 (finished_mem_set _ _ _ (by simp) hf)
    simp [hj] at this
  · intro hr
    show pending (s.workers.set i (WorkerPc.processing c)) = 0
    have := h9 hr
    omega
  · show s.fed = rest.length + busy (s.workers.set i (WorkerPc.processing c)) + s.classified
    simp [hj] at h10
    omega

theorem inv_worker_finish (W : Nat) (s : Sys) (h : Inv W s) (i : Nat)
    (hw : s.workers[i]? = some WorkerPc.ranging) (hj : s.jobs = [])
    (hc : s.jobsClosed = true) :
    Inv W (if s.wg = 0 then { s with panicked := true }
      else { s with wg := s.wg - 1, workers := s.workers.set i WorkerPc.finished }) := by
  obtain ⟨h1, h2, h3, h4, h5, h6, h7, h8, h9, h10, h11, h12, h13, h14⟩ := h
  obtain ⟨hp, hb⟩ := set_ranging s.workers i WorkerPc.finished hw
  simp only [pending, busy] at hp hb
  have hne : ¬ s.wg = 0 := by omega
  simp only [hne, if_false]
  refine ⟨h1, h2, h3, h4, ?_, ?_, ?_, ?_, ?_, ?_, h11, h12, h13, h14⟩
  · show s.wg - 1 = pending (s.workers.set i WorkerPc.finished)
    omega
  · intro k hk
    simpa using h6 k hk
  · intro hr
    simpa using h7 hr
  · intro _
    exact ⟨hc, hj⟩
  · intro hr
    show pending (s.workers.set i WorkerPc.finished) = 0
    have := h9 hr
    omega
  · show s.fed = s.jobs.length + busy (s.workers.set i WorkerPc.finished) + s.classified
    omega

theorem inv_worker_classified (W : Nat) (s : Sys) (h : Inv W s) (i : Nat) (c : Contact)
    (cq : List Contact) (uq : List PendingUpdate)
    (hw : s.workers[i]? = some (WorkerPc.processing c)) :
    Inv W { s with createQ := cq, updateQ := uq,
                   workers := s.workers.set i WorkerPc.ranging,
                   classified := s.classified + 1 } := by
  obtain ⟨h1, h2, h3, h4, h5, h6, h7, h8, h9, h10, h11, h12, h13, h14⟩ := h
  obtain ⟨hp, hb⟩ := set_processing s.workers i c WorkerPc.ranging hw
  simp only [pending, busy] at hp hb
  refine ⟨h1, h2, h3, h4, ?_, ?_, ?_, ?_, ?_, ?_, h11, h12, h13, h14⟩
  · show s.wg = pending (s.workers.set i WorkerPc.ranging)
    omega
  · intro k hk
    simpa using h6 k hk
  · intro hr
    simpa using h7 hr
  · intro hf
    exact h8 (finished_mem_set _ _ _ (by simp) hf)
  · intro hr
    show pending (s.workers.set i WorkerPc.ranging) = 0
    have := h9 hr
    omega
  · show s.fed = s.jobs.length + busy (s.workers.set i WorkerPc.ranging) + (s.classified + 1)
    omega

theorem processing_open (W : Nat) (s : Sys) (h : Inv W s) (i : Nat) (c : Contact)
    (hw : s.workers[i]? = some (WorkerPc.processing c)) :
    s.createClosed = false ∧ s.updateClosed = false := by
  obtain ⟨hp, _⟩ := set_processing s.workers i c WorkerPc.finished hw
  simp only [pending] at hp
  have hr : ¬ 4 ≤ s.pc.rank := by
    intro hr
    have := h.drained hr
    omega
  rw [h.createClosed_eq, h.updateClosed_eq]
  constructor <;> simp <;> omega

theorem inv_workerStep (W : Nat) (s : Sys) (h : Inv W s) (i : Nat) (lookup : Lookup) :
    Inv W (workerStep s i lookup) := by
  unfold workerStep
  split
  · exact h
  · exact h
  · next hw =>
    split
    · next c rest hj => exact inv_worker_take W s h i c rest hw hj
    · next hj =>
      split
      · next hc => exact inv_worker_finish W s h i hw hj hc
      · exact h
  · next c hw =>
    obtain ⟨hco, huo⟩ := processing_open W s h i c hw
    have hs1 := inv_worker_classified W s h i c
      (ProcessContact lookup ⟨s.createQ, s.updateQ⟩ c).CreateQueue
      (ProcessContact lookup ⟨s.createQ, s.updateQ⟩ c).UpdateQueue hw
    split
    · exact hs1
    · split
      · split
        · next hx => exact absurd hx (by simp [huo])
        · split
          · exact hs1
          · exact h
      · split
        · next hx => exact absurd hx (by simp [hco])
        · split
          · exact hs1
          · exact h

theorem inv_createStep (W : Nat) (bulk : BulkAPI Contact) (s : Sys) (h : Inv W s)
    (timer : Bool) : Inv W (createStep bulk s timer) := by
  have hagg : ∀ (a : Agg Contact) (q : List Contact), s.createAgg.exited = false →
      Inv W { s with createQ := q, createAgg := a } := by
    intro a q he
    obtain ⟨h1, h2, h3, h4, h5, h6, h7, h8, h9, h10, h11, h12, h13, h14⟩ := h
    refine ⟨h1, h2, h3, h4, h5, h6, h7, h8, h9, h10, h11, ?_, h13, h14⟩
    intro hd
    have := h12 hd
    simp [he] at this
  unfold createStep
  split
  · exact h
  · next he =>
    have he0 : s.createAgg.exited = false := by simpa using he
    split
    · exact hagg _ s.createQ he0
    · split
      · exact hagg _ _ he0
      · split
        · exact hagg _ s.createQ he0
        · exact h

theorem inv_updateStep (W : Nat) (bulk : BulkAPI PendingUpdate) (s : Sys) (h : Inv W s)
    (timer : Bool) : Inv W (updateStep bulk s timer) := by
  have hagg : ∀ (a : Agg PendingUpdate) (q : List PendingUpdate),
      s.updateAgg.exited = false → Inv W { s with updateQ := q, updateAgg := a } := by
    intro a q he
    obtain ⟨h1, h2, h3, h4, h5, h6, h7, h8, h9, h10, h11, h12, h13, h14⟩ := h
    refine ⟨h1, h2, h3, h4, h5, h6, h7, h8, h9, h10, h11, h12, ?_, h14⟩
    intro hd
    have := h13 hd
    simp [he] at this
  unfold updateStep
  split
  · exact h
  · next he =>
    have he0 : s.updateAgg.exited = false := by simpa using he
    split
    · exact hagg _ s.updateQ he0
    · split
      · exact hagg _ _ he0
      · split
        · exact hagg _ s.updateQ he0
        · exact h

theorem inv_createExit (W : Nat) (s : Sys) (h : Inv W s) (hr : s.pc ≠ MainPc.returned) :
    Inv W (createExit s) := by
  unfold createExit
  split
  · next hc =>
    simp at hc
    obtain ⟨h1, h2, h3, h4, h5, h6, h7, h8, h9, h10, h11, h12, h13, h14⟩ := h
    have hne : ¬ s.aggWg = 0 := by
      rw [h11]; simp [hc.2]
    simp only [hne, if_false]
    refine ⟨h1, h2, h3, h4, h5, h6, h7, h8, h9, h10, ?_, fun _ => hc.1, h13,
      fun hp => absurd hp hr⟩
    show s.aggWg - 1 = _
    rw [h11]
    simp [hc.2]
  · exact h

theorem inv_updateExit (W : Nat) (s : Sys) (h : Inv W s) (hr : s.pc ≠ MainPc.returned) :
    Inv W (updateExit s) := by
  unfold updateExit
  split
  · next hc =>
    simp at hc
    obtain ⟨h1, h2, h3, h4, h5, h6, h7, h8, h9, h10, h11, h12, h13, h14⟩ := h
    have hne : ¬ s.aggWg = 0 := by
      rw [h11]; simp [hc.2]
    simp only [hne, if_false]
    refine ⟨h1, h2, h3, h4, h5, h6, h7, h8, h9, h10, ?_, h12, fun _ => hc.1,
      fun hp => absurd hp hr⟩
    show s.aggWg - 1 = _
    rw [h11]
    simp [hc.2]
  · exact h

theorem inv_exec (W : Nat) (bc : BulkAPI Contact) (bu : BulkAPI PendingUpdate) (s : Sys)
    (h : Inv W s) (a : Action) : Inv W (exec W bc bu s a) := by
  unfold exec
  split
  · exact h
  · next hh =>
    have hr : s.pc ≠ MainPc.returned := by
      intro hp
      simp [Sys.halted, hp] at hh
    cases a with
    | main => exact inv_mainStep W s h
    | csvError =>
      simp only
      split
      · next hc =>
        obtain ⟨h1, h2, h3, h4, h5, h6, h7, h8, h9, h10, h11, h12, h13, h14⟩ := h
        simp [hc.1, MainPc.rank] at h2 h3 h4 h7
        exact ⟨h1, by simp [MainPc.rank, h2], by simp [MainPc.rank, h3],
          by simp [MainPc.rank, h4], h5, by simp, by simp [h7], h8,
          by simp [MainPc.rank], h10, h11, h12, h13, by simp⟩
      · exact h
    | worker i lookup => exact inv_workerStep W s h i lookup
    | create timer => exact inv_createStep W bc s h timer
    | update timer => exact inv_updateStep W bu s h timer
    | createExit => exact inv_createExit W s h hr
    | updateExit => exact inv_updateExit W s h hr

theorem inv_foldl (W : Nat) (bc : BulkAPI Contact) (bu : BulkAPI PendingUpdate)
    (schedule : List Action) :
    ∀ s : Sys, Inv W s → Inv W (schedule.foldl (exec W bc bu) s) := by
  induction schedule with
  | nil => intro s h; exact h
  | cons a as ih => intro s h; exact ih _ (inv_exec W bc bu s h a)

theorem inv_runMain (W : Nat) (bc : BulkAPI Contact) (bu : BulkAPI PendingUpdate)
    (rows : List Contact) (schedule : List Action) :
    Inv W (runMain W bc bu rows schedule) :=
  inv_foldl W bc bu schedule _ (inv_init W rows)

/-! ## The claim on the shutdown order of `main` -/

/-- C10: in every execution of `main` with at least one worker, at every
point where `CreateQueue` or `UpdateQueue` is closed the channel `jobs` is
closed and empty, all `WorkerCount` workers have finished and every contact
sent on `jobs` has been classified; no goroutine panics, so no worker sends
on a closed queue; and when `main` has returned both aggregators have
returned. -/
theorem queues_closed_after_workers_exit (WorkerCount : Nat) (hW : 0 < WorkerCount)
    (BulkCreateAPI : BulkAPI Contact) (BulkUpdateAPI : BulkAPI PendingUpdate)
    (rows : List Contact) (schedule : List Action) :
    ((runMain WorkerCount BulkCreateAPI BulkUpdateAPI rows schedule).createClosed = true
        ∨ (runMain WorkerCount BulkCreateAPI BulkUpdateAPI rows schedule).updateClosed = true →
      (runMain WorkerCount BulkCreateAPI BulkUpdateAPI rows schedule).jobsClosed = true
        ∧ (runMain WorkerCount BulkCreateAPI BulkUpdateAPI rows schedule).jobs = []
        ∧ (runMain WorkerCount BulkCreateAPI BulkUpdateAPI rows schedule).workers.length
            = WorkerCount
        ∧ (∀ w ∈ (runMain WorkerCount BulkCreateAPI BulkUpdateAPI rows schedule).workers,
            w = WorkerPc.finished)
        ∧ (runMain WorkerCount BulkCreateAPI BulkUpdateAPI rows schedule).classified
            = (runMain WorkerCount BulkCreateAPI BulkUpdateAPI rows schedule).fed)
      ∧ (runMain WorkerCount BulkCreateAPI BulkUpdateAPI rows schedule).panicked = false
      ∧ ((runMain WorkerCount BulkCreateAPI BulkUpdateAPI rows schedule).pc = MainPc.returned →
          (runMain WorkerCount BulkCreateAPI BulkUpdateAPI rows schedule).createAgg.exited = true
            ∧ (runMain WorkerCount BulkCreateAPI BulkUpdateAPI rows schedule).updateAgg.exited
                = true) := by
  have h := inv_runMain WorkerCount BulkCreateAPI BulkUpdateAPI rows schedule
  generalize runMain WorkerCount BulkCreateAPI BulkUpdateAPI rows schedule = s at h
  obtain ⟨h1, h2, h3, h4, h5, h6, h7, h8, h9, h10, h11, h12, h13, h14⟩ := h
  refine ⟨?_, h1, ?_⟩
  · intro hc
    have hr : 5 ≤ s.pc.rank := by
      rcases hc with hc | hc
      · rw [h3] at hc
        simpa using hc
      · rw [h4] at hc
        have : 6 ≤ s.pc.rank := by simpa using hc
        omega
    have hp := h9 (by omega)
    have hlen := h7 (by omega)
    obtain ⟨hall, hbusy⟩ := pending_zero_all_finished s.workers hp
    have hmem : WorkerPc.finished ∈ s.workers := by
      cases hws : s.workers with
      | nil => simp [hws] at hlen; omega
      | cons w ws =>
        have := hall w (by simp [hws])
        simp [this]
    obtain ⟨hjc, hj⟩ := h8 hmem
    refine ⟨hjc, hj, hlen, hall, ?_⟩
    rw [h10, hj, hbusy]
    simp
  · intro hpc
    have hz := h14 hpc
    rw [h11] at hz
    have hcd : s.createDone = true := by
      by_contra hn
      simp [hn] at hz
    have hud : s.updateDone = true := by
      by_contra hn
      simp [hn] at hz
    exact ⟨h12 hcd, h13 hud⟩

/-- Witness of C10: a complete run with one worker and two contacts ends with
`main` returned, `jobs` drained and both aggregators returned. -/
theorem queues_closed_after_workers_exit_witness :
    (runMain 1 (fun _ _ => none) (fun _ _ => none) demoRows demoSchedule).pc = MainPc.returned
      ∧ (runMain 1 (fun _ _ => none) (fun _ _ => none) demoRows demoSchedule).jobs = []
      ∧ (runMain 1 (fun _ _ => none) (fun _ _ => none) demoRows demoSchedule).createAgg.exited
          = true :=
  ⟨by decide,
   ((queues_closed_after_workers_exit 1 (by decide) (fun _ _ => none) (fun _ _ => none)
      demoRows demoSchedule).1 (Or.inl (by decide))).2.1,
   ((queues_closed_after_workers_exit 1 (by decide) (fun _ _ => none) (fun _ _ => none)
      demoRows demoSchedule).2.2 (by decide)).1⟩

end Netcore
